import Mathlib

/-!
Verification of the concurrent fetch-validate-persist pipeline
(`src/script_fetch_data/fetch_posts.py`) against its design document.

The Python source is shallowly embedded: the network is abstracted as a
function from identifiers to `FetchEvent`s (what the remote/transport does
for that request), JSON payloads become association lists of string keys to
scalar values, the sqlite table becomes a list of rows, and the CSV file
becomes a list of rows of string cells.  Each definition carries a note
saying which source lines it embeds.
-/

set_option autoImplicit false

namespace FetchPosts

/-- A scalar JSON value as it occurs in the payloads this script handles. -/
inductive Value where
  | vInt (n : Int)
  | vStr (s : String)
deriving DecidableEq

/-- A JSON object payload: association list from field name to value
(Python `dict` as decoded by `response.json()`). -/
def Payload : Type := List (String × Value)

instance : DecidableEq Payload := by unfold Payload; infer_instance

instance : Membership (String × Value) Payload := by unfold Payload; infer_instance

/-- What the outside world does for one request: a response with a status,
a Content-Type header and a (already JSON-decoded) body; a timeout
(`asyncio.TimeoutError`); or any other exception (transport faults such as
DNS failure, connection refusal, and also JSON decode errors — everything
the generic `except Exception` branch catches). -/
inductive FetchEvent where
  | response (status : Nat) (contentType : String) (body : Payload)
  | timeout
  | exc (detail : String)

/-- One log line emitted by `fetch_post` (lines 58-61, 64-67, 70-73, 76). -/
inductive LogMsg where
  | unexpectedContentType (ct : String)
  | httpStatus (code : Nat)
  | timeoutLog
  | excLog (detail : String)
deriving DecidableEq

/-- Does `hay` start with `needle` (on character lists)? -/
def startsWithChars : List Char → List Char → Bool
  | _, [] => true
  | [], _ :: _ => false
  | c :: cs, d :: ds => c = d && startsWithChars cs ds

/-- Does `hay` contain `needle` as a contiguous substring?  Embeds the
Python expression `needle in hay` on strings. -/
def hasRunChars : List Char → List Char → Bool
  | [], needle => needle.isEmpty
  | c :: cs, needle => startsWithChars (c :: cs) needle || hasRunChars cs needle

/-- Python `needle in hay` for strings. -/
def strIncludes (hay needle : String) : Bool :=
  hasRunChars hay.toList needle.toList

/-- Embeds `fetch_post` (lines 49-77), returning both the outcome value the
Python function returns (`response.json()` payload on success, `None` in
every other branch) and the log lines it emits. -/
def fetchPostFull (ev : FetchEvent) : Option Payload × List LogMsg :=
  match ev with
  | .response status ct body =>
      if status = 200 then
        if strIncludes ct "application/json" then (some body, [])
        else (none, [.unexpectedContentType ct])
      else (none, [.httpStatus status])
  | .timeout => (none, [.timeoutLog])
  | .exc d => (none, [.excLog d])

/-- The value `fetch_post` returns (lines 49-77): the payload on success,
`None` in every failure branch. -/
def fetch_post (ev : FetchEvent) : Option Payload :=
  (fetchPostFull ev).1

/-- The list `results = await asyncio.gather(*tasks)` (lines 82-85):
`asyncio.gather` returns one result per task, in task (input) order,
regardless of completion order. -/
def gatherResults {α : Type} (world : α → FetchEvent) (post_ids : List α) :
    List (Option Payload) :=
  post_ids.map (fun i => fetch_post (world i))

/-- The comprehension `[result for result in results if result is not None]`
(line 86): keep exactly the non-`None` results, in order. -/
def extractSuccesses (results : List (Option Payload)) : List Payload :=
  results.filterMap id

/-- Embeds `fetch_all_posts` (lines 80-92): gather all outcomes, then
return only the non-`None` ones. -/
def fetch_all_posts {α : Type} (world : α → FetchEvent) (post_ids : List α) :
    List Payload :=
  extractSuccesses (gatherResults world post_ids)

/-- The design document's Aggregator contract, written from its words:
an order-preserving filter keeping only `Success` payloads. -/
def specAggregator : List (Option Payload) → List Payload
  | [] => []
  | some p :: rest => p :: specAggregator rest
  | none :: rest => specAggregator rest

/-- The four keys `save_to_db` requires (line 101) and the
`fieldnames` of the CSV writer (line 124). -/
def fieldnames : List String := ["id", "userId", "title", "body"]

/-- The inner loop of `save_to_db` (lines 100-104): are all four required
keys present in the payload? -/
def allKeysExist (p : Payload) : Bool :=
  fieldnames.all (fun k => (p.lookup k).isSome)

/-- The validation loop of `save_to_db` (lines 96-106): keep the payloads
that are truthy (non-empty dict) and have all four required keys. -/
def validPosts (posts : List Payload) : List Payload :=
  posts.filter (fun p => !p.isEmpty && allKeysExist p)

/-- One row of the sqlite table `posts` (lines 28-37): columns
`id, user_id, title, body`, with `id` the primary key. -/
structure DbRow where
  id : Value
  user_id : Value
  title : Value
  body : Value
deriving DecidableEq

/-- The tuple `(post["id"], post["userId"], post["title"], post["body"])`
built for `executemany` (line 114); for the payloads actually passed all
four lookups succeed, so the default never surfaces. -/
def rowOfPost (p : Payload) : DbRow :=
  { id := (p.lookup "id").getD (.vInt 0)
    user_id := (p.lookup "userId").getD (.vInt 0)
    title := (p.lookup "title").getD (.vInt 0)
    body := (p.lookup "body").getD (.vInt 0) }

/-- `INSERT OR REPLACE INTO posts ... VALUES (?, ?, ?, ?)` for one row
(lines 108-112): sqlite deletes any row conflicting on the primary key
`id`, then inserts the new row. -/
def upsertRow (table : List DbRow) (r : DbRow) : List DbRow :=
  table.filter (fun x => decide (x.id ≠ r.id)) ++ [r]

/-- `cursor.executemany` of the upsert statement (lines 108-117): apply the
statement to each parameter row in order. -/
def executemanyUpsert (table : List DbRow) (rows : List DbRow) : List DbRow :=
  rows.foldl upsertRow table

/-- The parameter rows `save_to_db` hands to `executemany` (lines 113-116). -/
def dbRows (posts : List Payload) : List DbRow :=
  (validPosts posts).map rowOfPost

/-- Embeds `save_to_db` (lines 95-119) acting on the table state: validate,
then batch-upsert the accepted rows. -/
def save_to_db (table : List DbRow) (posts : List Payload) : List DbRow :=
  executemanyUpsert table (dbRows posts)

/-- `save_to_db` with the storage primitive (`executemany` + `commit`, which
may raise e.g. on constraint violation or unavailable storage) left
abstract. The Python body wraps that call in no `try`/`except`, so the sink
is exactly the storage primitive applied to the accepted rows. -/
def save_to_db_with (exec : List DbRow → Except String (List DbRow))
    (posts : List Payload) : Except String (List DbRow) :=
  exec (dbRows posts)

/-- String rendering of a cell value, as the `csv` module stringifies it. -/
def cellOf : Value → String
  | .vInt n => toString n
  | .vStr s => s

/-- Does the payload carry a key outside `fieldnames`?  This is
`rowdict.keys() - self.fieldnames` being non-empty in
`csv.DictWriter._dict_to_list`. -/
def hasExtraKey (p : Payload) : Bool :=
  (p.map Prod.fst).any (fun k => !(fieldnames.contains k))

/-- The cell row `DictWriter` produces for a payload: one cell per field
name, the rendered value if the key is present, else the default
`restval`, which is `None` and serializes to the empty cell. -/
def renderRow (p : Payload) : List String :=
  fieldnames.map (fun k =>
    match p.lookup k with
    | some v => cellOf v
    | none => "")

/-- `csv.DictWriter._dict_to_list` with the default `extrasaction="raise"`:
a payload with a key outside `fieldnames` raises `ValueError`; otherwise the
row of cells is produced. -/
def dictToRow (p : Payload) : Except String (List String) :=
  if hasExtraKey p then
    Except.error "dict contains fields not in fieldnames"
  else
    Except.ok (renderRow p)

/-- The header row written by `writer.writeheader()` (line 126). -/
def headerRow : List String := fieldnames

/-- `writer.writerows(posts)` (line 127): write rows one at a time onto what
is already in the file; the first payload that raises stops the loop, with
the earlier rows already written. -/
def writeRows (acc : List (List String)) : List Payload →
    List (List String) × Option String
  | [] => (acc, none)
  | p :: rest =>
      match dictToRow p with
      | Except.error e => (acc, some e)
      | Except.ok r => writeRows (acc ++ [r]) rest

/-- Embeds `save_to_csv` (lines 122-128): open the file in mode `"w"`
(truncating whatever was there), write the header, then the rows.  Returns
the file contents and, when `DictWriter` raised, the error. -/
def save_to_csv (posts : List Payload) : List (List String) × Option String :=
  writeRows [headerRow] posts

/-- The state a pipeline run can modify: the sqlite table and the contents
of the CSV file. -/
structure PState where
  db : List DbRow
  csv : List (List String)
deriving DecidableEq

/-- Embeds `main` (lines 131-135): fetch everything, and if the success
list is non-empty run both sinks, the relational one first.  Returns the
new state and the error `save_to_csv` raised, if any (by then the database
commit has already happened). -/
def mainRun {α : Type} (world : α → FetchEvent) (post_ids : List α)
    (st : PState) : PState × Option String :=
  let posts := fetch_all_posts world post_ids
  if posts.isEmpty then (st, none)
  else
    let db' := save_to_db st.db posts
    let out := save_to_csv posts
    ({ db := db', csv := out.1 }, out.2)

/-- Rows of the table carrying a given primary-key value. -/
def rowsWithId (table : List DbRow) (v : Value) : List DbRow :=
  table.filter (fun x => decide (x.id = v))

/-- Number of data rows in the export file (everything below the header). -/
def dataRowCount (file : List (List String)) : Nat :=
  file.length - 1

/-- A complete payload, as the remote API returns it. -/
def samplePayload : Payload :=
  [("id", Value.vInt 1), ("userId", Value.vInt 2),
   ("title", Value.vStr "t"), ("body", Value.vStr "b")]

/-- A second complete payload with a different `id`. -/
def samplePayload2 : Payload :=
  [("id", Value.vInt 9), ("userId", Value.vInt 4),
   ("title", Value.vStr "u"), ("body", Value.vStr "c")]

/-- A payload missing three of the four required fields. -/
def missingPayload : Payload := [("id", Value.vInt 7)]

/-- A payload missing `title` but carrying an unknown extra field. -/
def missingExtraPayload : Payload :=
  [("id", Value.vInt 1), ("userId", Value.vInt 2),
   ("body", Value.vStr "b"), ("junk", Value.vInt 0)]

/-- A complete payload that also carries a fifth, unknown field. -/
def extraPayload : Payload :=
  [("id", Value.vInt 1), ("userId", Value.vInt 2),
   ("title", Value.vStr "t"), ("body", Value.vStr "b"),
   ("extra", Value.vInt 3)]

/-- A remote that answers every request with a valid JSON post. -/
def worldGood : Nat → FetchEvent :=
  fun _ => FetchEvent.response 200 "application/json" samplePayload

/-- A remote that answers every request with a different valid JSON post. -/
def worldGood2 : Nat → FetchEvent :=
  fun _ => FetchEvent.response 200 "application/json" samplePayload2

/-- A remote on which every request times out. -/
def worldDown : Nat → FetchEvent :=
  fun _ => FetchEvent.timeout

/-- Pipeline state left behind by an earlier run: one data row in the CSV. -/
def stPrev : PState :=
  { db := [], csv := [headerRow, ["1", "2", "t", "b"]] }

end FetchPosts

namespace FetchPosts

/-! ### Helper lemmas -/

theorem allKeysExist_ne_empty (p : Payload) (h : allKeysExist p = true) :
    p.isEmpty = false := by
  cases p with
  | nil => exact absurd h (by decide)
  | cons a l => rfl

theorem validPosts_single (p : Payload) (h : allKeysExist p = true) :
    validPosts [p] = [p] := by
  simp [validPosts, allKeysExist_ne_empty p h, h]

theorem validPosts_pair (p1 p2 : Payload) (h1 : allKeysExist p1 = true)
    (h2 : allKeysExist p2 = true) : validPosts [p1, p2] = [p1, p2] := by
  simp [validPosts, allKeysExist_ne_empty p1 h1, allKeysExist_ne_empty p2 h2,
    h1, h2]

theorem rowsWithId_upsertRow (t : List DbRow) (r : DbRow) :
    rowsWithId (upsertRow t r) r.id = [r] := by
  unfold rowsWithId upsertRow
  rw [List.filter_append]
  have h1 : (t.filter (fun x => decide (x.id ≠ r.id))).filter
      (fun x => decide (x.id = r.id)) = [] := by
    rw [List.filter_eq_nil_iff]
    intro a ha
    rcases List.mem_filter.mp ha with ⟨-, hne⟩
    simp only [decide_eq_true_eq] at hne ⊢
    exact hne
  rw [h1]
  simp

theorem mem_executemanyUpsert (r : DbRow) :
    ∀ (rows : List DbRow) (t : List DbRow),
      r ∈ executemanyUpsert t rows → r ∈ t ∨ r ∈ rows := by
  intro rows
  induction rows with
  | nil => intro t h; exact Or.inl h
  | cons r0 rs ih =>
      intro t h
      rcases ih (upsertRow t r0) h with h' | h'
      · rcases List.mem_append.mp h' with h'' | h''
        · exact Or.inl (List.mem_filter.mp h'').1
        · rcases List.mem_singleton.mp h'' with rfl
          exact Or.inr (List.mem_cons_self _ _)
      · exact Or.inr (List.mem_cons_of_mem _ h')

theorem filter_executemanyUpsert (Q : Value → Bool) :
    ∀ (rows : List DbRow) (t : List DbRow), (∀ r ∈ rows, Q r.id = false) →
      (executemanyUpsert t rows).filter (fun x => Q x.id)
        = t.filter (fun x => Q x.id) := by
  intro rows
  induction rows with
  | nil => intro t _; rfl
  | cons r rs ih =>
      intro t hq
      have hr : Q r.id = false := hq r (List.mem_cons_self _ _)
      have step : (upsertRow t r).filter (fun x => Q x.id)
          = t.filter (fun x => Q x.id) := by
        unfold upsertRow
        rw [List.filter_append]
        have h2 : [r].filter (fun x => Q x.id) = [] := by simp [hr]
        rw [h2, List.append_nil, List.filter_filter]
        apply List.filter_congr
        intro a _
        by_cases hQ : Q a.id = true
        · have hne : a.id ≠ r.id := by
            intro hEq
            rw [hEq, hr] at hQ
            exact Bool.noConfusion hQ
          simp [hQ, hne]
        · simp only [Bool.not_eq_true] at hQ
          simp [hQ]
      calc (executemanyUpsert (upsertRow t r) rs).filter (fun x => Q x.id)
          = (upsertRow t r).filter (fun x => Q x.id) :=
            ih _ (fun r' hr' => hq r' (List.mem_cons_of_mem _ hr'))
        _ = t.filter (fun x => Q x.id) := step

theorem writeRows_ok :
    ∀ (posts : List Payload) (acc : List (List String)),
      (∀ p ∈ posts, hasExtraKey p = false) →
      writeRows acc posts = (acc ++ posts.map renderRow, none) := by
  intro posts
  induction posts with
  | nil => intro acc _; simp [writeRows]
  | cons p rest ih =>
      intro acc h
      have hp : hasExtraKey p = false := h p (List.mem_cons_self _ _)
      have hrest := ih (acc ++ [renderRow p])
        (fun q hq => h q (List.mem_cons_of_mem _ hq))
      simp [writeRows, dictToRow, hp, hrest]

theorem mainRun_csv {α : Type} (world : α → FetchEvent) (post_ids : List α)
    (st : PState) (hne : fetch_all_posts world post_ids ≠ [])
    (hok : ∀ p ∈ fetch_all_posts world post_ids, hasExtraKey p = false) :
    (mainRun world post_ids st).1.csv
        = headerRow :: (fetch_all_posts world post_ids).map renderRow
      ∧ (mainRun world post_ids st).2 = none
      ∧ (mainRun world post_ids st).1.db
        = save_to_db st.db (fetch_all_posts world post_ids) := by
  have hE : (fetch_all_posts world post_ids).isEmpty = false := by
    cases hEq : fetch_all_posts world post_ids with
    | nil => exact absurd hEq hne
    | cons a l => rfl
  have hcsv := writeRows_ok (fetch_all_posts world post_ids) [headerRow] hok
  simp [mainRun, hE, save_to_csv, hcsv]

theorem mainRun_empty {α : Type} (world : α → FetchEvent) (post_ids : List α)
    (st : PState) (hemp : fetch_all_posts world post_ids = []) :
    mainRun world post_ids st = (st, none) := by
  simp [mainRun, hemp]

/-! ### Claim theorems -/

/-- Claim C1, counterexample: on the one-element batch `[1]` with the single
fetch timing out, `fetch_all_posts` returns the empty list, so the value it
returns does NOT have the length of the identifier batch — the function
filters the gathered outcome sequence before returning it. -/
theorem spec_C1_cex :
    fetch_all_posts worldDown [1] = []
      ∧ ([1] : List Nat).length = 1
      ∧ (fetch_all_posts worldDown [1]).length ≠ ([1] : List Nat).length := by
  decide

/-- Claim C1 as amended: the gathered outcome sequence (`results` from
`asyncio.gather`) has one outcome per identifier, its `i`-th element is the
outcome of the fetch built from the `i`-th identifier, and the value
`fetch_all_posts` actually returns is that sequence with the `None`
outcomes filtered out. -/
theorem spec_C1 {α : Type} (world : α → FetchEvent) (post_ids : List α) :
    (gatherResults world post_ids).length = post_ids.length
      ∧ (∀ i : Nat, (gatherResults world post_ids)[i]?
          = (post_ids[i]?).map (fun x => fetch_post (world x)))
      ∧ fetch_all_posts world post_ids
          = extractSuccesses (gatherResults world post_ids) := by
  refine ⟨by simp [gatherResults], fun i => ?_, rfl⟩
  simp [gatherResults]

/-- Claim C5, counterexample: the value `fetch_post` returns does not carry
a tagged failure variant — an HTTP 404 response and a timeout produce the
very same outcome, `None`. -/
theorem spec_C5_cex :
    fetch_post (FetchEvent.response 404 "application/json" samplePayload)
        = fetch_post FetchEvent.timeout
      ∧ fetch_post FetchEvent.timeout = none
      ∧ fetch_post (FetchEvent.response 200 "text/html" samplePayload) = none := by
  decide

/-- Claim C5 as amended: a 200 response with a JSON content type yields the
payload; a 200 response with a non-JSON content type, any other status, a
timeout, and any other exception each yield the same untagged `None`
outcome while emitting a log line that does identify the failure kind; the
returned value of `fetch_post` is total (no exception escapes). -/
theorem spec_C5 :
    (∀ (ct : String) (b : Payload), strIncludes ct "application/json" = true →
        fetchPostFull (FetchEvent.response 200 ct b) = (some b, []))
      ∧ (∀ (ct : String) (b : Payload),
          strIncludes ct "application/json" = false →
          fetchPostFull (FetchEvent.response 200 ct b)
            = (none, [LogMsg.unexpectedContentType ct]))
      ∧ (∀ (s : Nat) (ct : String) (b : Payload), s ≠ 200 →
          fetchPostFull (FetchEvent.response s ct b)
            = (none, [LogMsg.httpStatus s]))
      ∧ fetchPostFull FetchEvent.timeout = (none, [LogMsg.timeoutLog])
      ∧ (∀ d, fetchPostFull (FetchEvent.exc d) = (none, [LogMsg.excLog d]))
      ∧ (∀ ev, fetch_post ev = (fetchPostFull ev).1) := by
  refine ⟨?_, ?_, ?_, rfl, fun d => rfl, fun ev => rfl⟩
  · intro ct b h
    simp [fetchPostFull, h]
  · intro ct b h
    simp [fetchPostFull, h]
  · intro s ct b h
    simp [fetchPostFull, h]

/-- Witness for the amended claim C5 at concrete inputs. -/
theorem spec_C5_witness :
    (strIncludes "application/json; charset=utf-8" "application/json" = true
      ∧ fetchPostFull
          (FetchEvent.response 200 "application/json; charset=utf-8"
            samplePayload)
          = (some samplePayload, []))
    ∧ (strIncludes "text/html" "application/json" = false
      ∧ fetchPostFull (FetchEvent.response 200 "text/html" samplePayload)
          = (none, [LogMsg.unexpectedContentType "text/html"]))
    ∧ ((404 : Nat) ≠ 200
      ∧ fetchPostFull (FetchEvent.response 404 "application/json" samplePayload)
          = (none, [LogMsg.httpStatus 404])) :=
  ⟨⟨by decide, spec_C5.1 _ _ (by decide)⟩,
   ⟨by decide, spec_C5.2.1 _ _ (by decide)⟩,
   ⟨by decide, spec_C5.2.2.1 _ _ _ (by decide)⟩⟩

/-- Claim C8: the Aggregator step (the `valid_results` comprehension) is a
pure, order-preserving filter: it equals the spec-side filter keeping only
successful payloads, and wrapping its output back in `some` gives a
subsequence of the ordered outcome list. -/
theorem spec_C8 (results : List (Option Payload)) :
    extractSuccesses results = specAggregator results
      ∧ ((extractSuccesses results).map Option.some).Sublist results := by
  induction results with
  | nil => exact ⟨rfl, List.nil_sublist _⟩
  | cons o rest ih =>
      cases o with
      | none =>
          refine ⟨?_, ?_⟩
          · simpa [extractSuccesses, specAggregator] using ih.1
          · exact List.Sublist.cons _ (by simpa [extractSuccesses] using ih.2)
      | some p =>
          refine ⟨?_, ?_⟩
          · simpa [extractSuccesses, specAggregator] using ih.1
          · exact List.Sublist.cons₂ _ (by simpa [extractSuccesses] using ih.2)

/-- Claim C2, counterexample: a payload missing the required field `title`
but carrying an unknown extra field does NOT produce a row in the tabular
export — `DictWriter` raises on the extra field, so the export holds only
the header. -/
theorem spec_C2_cex :
    allKeysExist missingExtraPayload = false
      ∧ (save_to_csv [missingExtraPayload]).1 = [headerRow]
      ∧ (save_to_csv [missingExtraPayload]).2.isSome = true := by
  decide

/-- Claim C2 as amended: every row the relational sink ends up with is
either pre-existing or comes from a complete payload of the batch (so an
incomplete payload never produces a relational row, and a single
incomplete payload leaves the table untouched); and an incomplete payload
does produce a tabular-export row with an empty cell at each missing
field, provided it carries no field beyond the four export columns. -/
theorem spec_C2 (table : List DbRow) (posts : List Payload) (p : Payload)
    (r : DbRow) (hmiss : allKeysExist p = false)
    (hnx : hasExtraKey p = false) (hr : r ∈ save_to_db table posts) :
    (r ∈ table ∨ ∃ q, q ∈ posts ∧ allKeysExist q = true ∧ r = rowOfPost q)
      ∧ save_to_db table [p] = table
      ∧ save_to_csv [p] = ([headerRow, renderRow p], none)
      ∧ (∀ (i : Nat) (k : String), fieldnames[i]? = some k →
          p.lookup k = none → (renderRow p)[i]? = some "") := by
  refine ⟨?_, ?_, ?_, ?_⟩
  · rcases mem_executemanyUpsert r (dbRows posts) table hr with h | h
    · exact Or.inl h
    · rcases List.mem_map.mp h with ⟨q, hq, rfl⟩
      rcases List.mem_filter.mp hq with ⟨hqposts, hqok⟩
      rcases Bool.and_eq_true_iff.mp hqok with ⟨-, hq4⟩
      exact Or.inr ⟨q, hqposts, hq4, rfl⟩
  · simp [save_to_db, dbRows, validPosts, hmiss, executemanyUpsert]
  · simp [save_to_csv, writeRows, dictToRow, hnx]
  · intro i k hik hnone
    have hmap : (renderRow p)[i]? = (fieldnames[i]?).map
        (fun k => match p.lookup k with
          | some v => cellOf v
          | none => "") := by
      simp [renderRow]
    rw [hmap, hik]
    simp [hnone]

/-- Witness for the amended claim C2: `missingPayload` lacks `userId`,
`title` and `body`; it adds no relational row but yields an export row
whose `title` cell (column index 2) is empty, while a complete payload does
account for the row it adds. -/
theorem spec_C2_witness :
    (allKeysExist missingPayload = false
      ∧ hasExtraKey missingPayload = false
      ∧ rowOfPost samplePayload ∈ save_to_db [] [samplePayload])
    ∧ (rowOfPost samplePayload ∈ ([] : List DbRow)
        ∨ ∃ q, q ∈ [samplePayload] ∧ allKeysExist q = true
            ∧ rowOfPost samplePayload = rowOfPost q)
    ∧ save_to_db [] [missingPayload] = []
    ∧ save_to_csv [missingPayload] = ([headerRow, renderRow missingPayload], none)
    ∧ (renderRow missingPayload)[2]? = some "" := by
  have h := spec_C2 [] [samplePayload] missingPayload (rowOfPost samplePayload)
    (by decide) (by decide) (by decide)
  exact ⟨⟨by decide, by decide, by decide⟩, h.1, h.2.1, h.2.2.1,
    h.2.2.2 2 "title" (by decide) (by decide)⟩

/-- Claim C3: the relational write is an idempotent upsert keyed by `id`.
Persisting two complete payloads with the same `id` — within one batch or
across two calls — leaves exactly one row for that id, holding the later
payload's values. -/
theorem spec_C3 (table : List DbRow) (p1 p2 : Payload)
    (h1 : allKeysExist p1 = true) (h2 : allKeysExist p2 = true)
    (_hid : (rowOfPost p1).id = (rowOfPost p2).id) :
    rowsWithId (save_to_db table [p1, p2]) (rowOfPost p2).id
        = [rowOfPost p2]
      ∧ rowsWithId (save_to_db (save_to_db table [p1]) [p2])
          (rowOfPost p2).id = [rowOfPost p2] := by
  have hd12 : dbRows [p1, p2] = [rowOfPost p1, rowOfPost p2] := by
    simp [dbRows, validPosts_pair p1 p2 h1 h2]
  have hd1 : dbRows [p1] = [rowOfPost p1] := by
    simp [dbRows, validPosts_single p1 h1]
  have hd2 : dbRows [p2] = [rowOfPost p2] := by
    simp [dbRows, validPosts_single p2 h2]
  constructor
  · rw [save_to_db, hd12]
    exact rowsWithId_upsertRow _ _
  · rw [save_to_db, hd2, save_to_db, hd1]
    exact rowsWithId_upsertRow _ _

/-- Witness for claim C3 at a concrete payload stored twice. -/
theorem spec_C3_witness :
    allKeysExist samplePayload = true
      ∧ rowsWithId (save_to_db [] [samplePayload, samplePayload])
          (rowOfPost samplePayload).id = [rowOfPost samplePayload] :=
  ⟨by decide,
   (spec_C3 [] samplePayload samplePayload (by decide) (by decide) rfl).1⟩

/-- Claim C4, counterexample: a run with zero successes does not rewrite
the export — starting from a state whose export holds one data row from an
earlier run, a run in which the only fetch times out leaves that row in
place, so the export's data-row count (1) differs from the run's success
count (0). -/
theorem spec_C4_cex :
    fetch_all_posts worldDown [1] = []
      ∧ dataRowCount (mainRun worldDown [1] stPrev).1.csv = 1
      ∧ (fetch_all_posts worldDown [1]).length = 0
      ∧ dataRowCount (mainRun worldDown [1] stPrev).1.csv
          ≠ (fetch_all_posts worldDown [1]).length := by
  decide

/-- Claim C4 as amended: for a run with at least one success whose
successful payloads carry no field beyond the export columns, the export is
exactly the header plus one row per success, so its data-row count equals
the Aggregator's success count; a run with zero successes skips both sinks
and leaves the previous state (including any previous export rows)
unchanged. -/
theorem spec_C4 {α : Type} (world : α → FetchEvent) (post_ids : List α)
    (st : PState) :
    (fetch_all_posts world post_ids ≠ [] →
      (∀ p ∈ fetch_all_posts world post_ids, hasExtraKey p = false) →
      (mainRun world post_ids st).1.csv
          = headerRow :: (fetch_all_posts world post_ids).map renderRow
        ∧ dataRowCount (mainRun world post_ids st).1.csv
            = (fetch_all_posts world post_ids).length)
    ∧ (fetch_all_posts world post_ids = [] →
        mainRun world post_ids st = (st, none)) := by
  constructor
  · intro hne hok
    have h := mainRun_csv world post_ids st hne hok
    refine ⟨h.1, ?_⟩
    rw [dataRowCount, h.1]
    simp
  · intro hemp
    exact mainRun_empty world post_ids st hemp

/-- Witness for the amended claim C4: a one-identifier run with one
success yields an export of exactly one data row. -/
theorem spec_C4_witness :
    (fetch_all_posts worldGood [1] ≠ []
      ∧ ∀ p ∈ fetch_all_posts worldGood [1], hasExtraKey p = false)
    ∧ dataRowCount
        (mainRun worldGood [1] ({ db := [], csv := [] } : PState)).1.csv
      = (fetch_all_posts worldGood [1]).length :=
  ⟨⟨by decide, by decide⟩,
   ((spec_C4 worldGood [1] { db := [], csv := [] }).1 (by decide)
     (by decide)).2⟩

/-- Claim C6, counterexample: after a first run that exported one row, a
second run whose success set is empty (disjoint from the first) leaves the
first run's row in the export instead of replacing the contents with the
second run's (empty) row set. -/
theorem spec_C6_cex :
    fetch_all_posts worldDown [1] = []
      ∧ (mainRun worldDown [1]
            (mainRun worldGood [1] ({ db := [], csv := [] } : PState)).1).1.csv
          = [headerRow, renderRow samplePayload]
      ∧ (mainRun worldDown [1]
            (mainRun worldGood [1] ({ db := [], csv := [] } : PState)).1).1.csv
          ≠ [headerRow] := by
  decide

/-- Claim C6 as amended: provided the second run has at least one success
and its successful payloads carry no field beyond the export columns,
running the pipeline twice leaves the export containing exactly the
four-column header followed by the second run's rows in Aggregator order —
whatever the first run (or any earlier state) put there; a second run with
zero successes leaves the export unchanged instead. -/
theorem spec_C6 {α β : Type} (w1 : α → FetchEvent) (w2 : β → FetchEvent)
    (ids1 : List α) (ids2 : List β) (st : PState)
    (hne : fetch_all_posts w2 ids2 ≠ [])
    (hok : ∀ p ∈ fetch_all_posts w2 ids2, hasExtraKey p = false) :
    (mainRun w2 ids2 (mainRun w1 ids1 st).1).1.csv
      = headerRow :: (fetch_all_posts w2 ids2).map renderRow :=
  (mainRun_csv w2 ids2 (mainRun w1 ids1 st).1 hne hok).1

/-- Witness for the amended claim C6: two runs with disjoint successful
payload sets; the final export holds exactly the second run's row. -/
theorem spec_C6_witness :
    (fetch_all_posts worldGood2 [1] ≠ []
      ∧ ∀ p ∈ fetch_all_posts worldGood2 [1], hasExtraKey p = false)
    ∧ (mainRun worldGood2 [1]
          (mainRun worldGood [1] ({ db := [], csv := [] } : PState)).1).1.csv
        = headerRow :: (fetch_all_posts worldGood2 [1]).map renderRow :=
  ⟨⟨by decide, by decide⟩,
   spec_C6 worldGood worldGood2 [1] [1] { db := [], csv := [] }
     (by decide) (by decide)⟩

/-- Claim C7: `save_to_db` wraps the storage write (`executemany` +
`commit`) in no handler, so when the storage primitive fails the sink
returns exactly that error; when the storage primitive succeeds it
performs precisely the batch upsert of the accepted rows. -/
theorem spec_C7 (exec : List DbRow → Except String (List DbRow))
    (posts : List Payload) (e : String) (table : List DbRow)
    (h : exec (dbRows posts) = Except.error e) :
    save_to_db_with exec posts = Except.error e
      ∧ save_to_db_with (fun rows => Except.ok (executemanyUpsert table rows))
          posts = Except.ok (save_to_db table posts) :=
  ⟨h, rfl⟩

/-- Witness for claim C7: a storage layer that reports a locked database
makes the sink fail with that very error. -/
theorem spec_C7_witness :
    ((fun (_ : List DbRow) =>
        (Except.error "database is locked" : Except String (List DbRow)))
      (dbRows [samplePayload]) = Except.error "database is locked")
    ∧ save_to_db_with
        (fun _ => Except.error "database is locked") [samplePayload]
      = Except.error "database is locked" :=
  ⟨rfl,
   (spec_C7 (fun _ => Except.error "database is locked") [samplePayload]
     "database is locked" [] rfl).1⟩

/-- Claim C9: a successful, complete payload carrying a field beyond the
four export columns makes the tabular export write raise (`DictWriter`
rejects unknown fields), so the run ends with an error even though the
relational write for the same batch already committed the payload's row. -/
theorem spec_C9 (p : Payload) (st : PState)
    (hc : allKeysExist p = true) (hx : hasExtraKey p = true) :
    (mainRun (fun (_ : Nat) => FetchEvent.response 200 "application/json" p)
        [0] st).2.isSome = true
      ∧ rowOfPost p ∈ (mainRun
          (fun (_ : Nat) => FetchEvent.response 200 "application/json" p)
          [0] st).1.db := by
  have hjson : strIncludes "application/json" "application/json" = true := by
    decide
  have hfetch : fetch_all_posts
      (fun (_ : Nat) => FetchEvent.response 200 "application/json" p) [0]
      = [p] := by
    simp [fetch_all_posts, gatherResults, extractSuccesses, fetch_post,
      fetchPostFull, hjson]
  have hdb : dbRows [p] = [rowOfPost p] := by
    simp [dbRows, validPosts_single p hc]
  constructor
  · simp [mainRun, hfetch, save_to_csv, writeRows, dictToRow, hx]
  · simp only [mainRun, hfetch, List.isEmpty_cons, Bool.false_eq_true,
      if_false, save_to_db, hdb]
    simp [executemanyUpsert, upsertRow]

/-- Witness for claim C9 at a concrete five-field payload. -/
theorem spec_C9_witness :
    (allKeysExist extraPayload = true ∧ hasExtraKey extraPayload = true)
    ∧ (mainRun
        (fun (_ : Nat) => FetchEvent.response 200 "application/json"
          extraPayload) [0] ({ db := [], csv := [] } : PState)).2.isSome
        = true
    ∧ rowOfPost extraPayload ∈ (mainRun
        (fun (_ : Nat) => FetchEvent.response 200 "application/json"
          extraPayload) [0] ({ db := [], csv := [] } : PState)).1.db := by
  have h := spec_C9 extraPayload { db := [], csv := [] } (by decide)
    (by decide)
  exact ⟨⟨by decide, by decide⟩, h.1, h.2⟩

/-- Claim C10, the frame property of the relational upsert: restricted to
primary keys that do not occur among the accepted (complete) payloads of
the batch, the table after `save_to_db` is exactly the table before —
pre-existing rows with other ids are untouched, in content and order. -/
theorem spec_C10 (table : List DbRow) (posts : List Payload) :
    (save_to_db table posts).filter
        (fun x => decide (x.id ∉ (dbRows posts).map DbRow.id))
      = table.filter
          (fun x => decide (x.id ∉ (dbRows posts).map DbRow.id)) := by
  apply filter_executemanyUpsert
    (fun v => decide (v ∉ (dbRows posts).map DbRow.id))
  intro r hr
  simp only [decide_eq_false_iff_not, not_not]
  exact List.mem_map.mpr ⟨r, hr, rfl⟩

end FetchPosts
